import Mathlib

/-!
Shallow embedding of the HermitCore lwIP glue layer:
`src/arch/sys_arch.c` (OS adaptation: mailboxes, socket shim, PRNG) and
`src/arch/uhyve-net.c` (uhyve virtual NIC driver).

Machine integers are modelled as `Nat`/`Int` with explicit wrap-around
(`% 2 ^ w`) exactly where the C types make overflow possible.
-/

set_option maxRecDepth 8192

/-- lwIP error codes used by the embedded functions (`err_t` values from
`lwip/err.h`, which is an external header of the stack). -/
inductive ErrCode where
  | ERR_OK
  | ERR_MEM
  | ERR_VAL
  | ERR_IF
  deriving DecidableEq, Repr

/-! ## Socket shim: `poll` (sys_arch.c lines 441-452)

`int poll(...)` calls `lwip_poll` and then runs
`if (ret) { *libc_errno() = errno; return -1; } return 0;`.
The shim's observable behaviour is a function of the value `ret` returned
by `lwip_poll` and of the thread-local `errno`; we model it as such,
returning the value given back to the caller together with the value
written to the libc errno location (`none` when nothing is written). -/

def poll_shim (ret : Int) (errnoVal : Int) : Int × Option Int :=
  if ret ≠ 0 then (-1, some errnoVal) else (0, none)

/-! ## PRNG (sys_arch.c lines 617-657)

`__rand` takes the stored 32-bit unsigned seed, widens it to `long`
(64-bit signed on x86_64), applies one step of the Minimal Standard
generator via Schrage's factorization, stores the result back into the
`unsigned int` seed and returns `(int)(s & RAND_MAX)`. -/

def RAND_MAX : Int := 0x7fffffff

/-- `k = s / 127773` (C `long` division; operands are nonnegative in every
reachable call, and C truncating division agrees with `Int` division on
nonnegative operands). -/
def rand_k (s : Int) : Int := s / 127773

/-- `s = 16807 * (s - k * 127773) - 2836 * k` -/
def rand_s2 (s : Int) : Int :=
  16807 * (s - rand_k s * 127773) - 2836 * rand_k s

/-- `if (s < 0) s += 2147483647;` -/
def rand_step (s : Int) : Int :=
  if rand_s2 s < 0 then rand_s2 s + 2147483647 else rand_s2 s

/-- One call of `__rand` on the stored seed: returns the pair
(return value `(int)(s & RAND_MAX)`, new stored seed `(unsigned int)s`). -/
def __rand (seed : Nat) : Int × Nat :=
  let s0 : Int := (seed : Int)
  let s1 : Int := if s0 = 0 then 0x12345987 else s0
  (Int.land (rand_step s1) RAND_MAX, ((rand_step s1) % 4294967296).toNat)

/-- The naive linear-congruential recurrence the spec describes
(multiplier 16807, modulus 2^31 - 1), written from the spec's words as the
abstract model that `__rand`'s Schrage computation is claimed to refine. -/
def lcgStep (s : Nat) : Nat := (16807 * s) % 2147483647

/-! ## MAC hex decoding (uhyve-net.c `dehex` lines 102-112 and the
decode loop of `uhyve_netif_init` lines 286-291) -/

/-- `static inline uint8_t dehex(char c)` -/
def dehex (c : Char) : Nat :=
  if '0' ≤ c ∧ c ≤ '9' then c.toNat - '0'.toNat
  else if 'a' ≤ c ∧ c ≤ 'f' then 10 + (c.toNat - 'a'.toNat)
  else if 'A' ≤ c ∧ c ≤ 'F' then 10 + (c.toNat - 'A'.toNat)
  else 0

/-- The decode loop of `uhyve_netif_init`: for each of `n` hardware-address
bytes it consumes two hex digits (`hwaddr[i] = dehex(*p++) << 4;
hwaddr[i] |= dehex(*p++);`) and then skips one separator character
(`p++`). An input shorter than the loop needs yields the bytes decoded so
far (the C code would read past the buffer; the claims only concern
well-formed 17/18-character MAC strings). -/
def macDecode : Nat → List Char → List Nat
  | 0, _ => []
  | n + 1, c0 :: c1 :: rest => (dehex c0 <<< 4 ||| dehex c1) :: macDecode n (rest.drop 1)
  | _ + 1, _ => []

/-- Hex rendering of a nibble, used to state decode correctness:
digits `0-9` then letters in lower or upper case. -/
def toHexChar (upper : Bool) (v : Nat) : Char :=
  if v < 10 then Char.ofNat ('0'.toNat + v)
  else if upper then Char.ofNat ('A'.toNat + v - 10)
  else Char.ofNat ('a'.toNat + v - 10)

/-- The two hex characters of one byte. -/
def byteChars (upper : Bool) (b : Nat) : List Char :=
  [toHexChar upper (b / 16), toHexChar upper (b % 16)]

/-- A MAC string of the shape `"aa:bb:cc:dd:ee:ff"` rendered from six byte
values (colons at fixed offsets 2, 5, 8, 11, 14). -/
def renderMac (u : Bool) (b0 b1 b2 b3 b4 b5 : Nat) : List Char :=
  byteChars u b0 ++ ':' :: byteChars u b1 ++ ':' :: byteChars u b2 ++
  ':' :: byteChars u b3 ++ ':' :: byteChars u b4 ++ ':' :: byteChars u b5

/-! ## Mailboxes (sys_arch.c lines 177-280)

`sys_mbox_t` is `{ valid flag, kernel mailbox of void pointers }`. The
kernel mailbox primitives `mailbox_ptr_init / trypost / tryfetch` live in
the HermitCore kernel, outside this repository; they are modelled from the
spec as a bounded FIFO queue of pointers whose capacity is a fixed kernel
constant. What IS visible in `sys_arch.c` is decisive for the claims:
`sys_mbox_new(mb, size)` passes no size to `mailbox_ptr_init`, and it sets
`mb->valid = TRUE` and bumps the statistics counter before calling it. -/

/-- A pointer message. -/
abbrev Ptr := Nat

/-- The lwIP-side mailbox wrapper `sys_mbox_t`: validity flag plus the
kernel mailbox's queue contents. -/
structure SysMbox where
  valid : Bool
  queue : List Ptr
  deriving DecidableEq, Repr

/-- Modelled from the spec: the HermitCore kernel primitive
`mailbox_ptr_init` (not in src/) creates an empty bounded pointer queue;
its fixed compile-time capacity is threaded through the model as the
parameter `cap` of the posting operations below. `mailbox_ptr_init` takes
no size argument (visible at its call site in `sys_mbox_new`). Its result
models success (`0`) or failure of the underlying allocation. -/
def mailbox_ptr_init : List Ptr := []

/-- Modelled from the spec: the kernel primitive `mailbox_ptr_trypost`
appends to the queue when fewer than `cap` messages are outstanding and
otherwise fails with a would-block signal (`none`). -/
def mailbox_ptr_trypost (cap : Nat) (q : List Ptr) (msg : Ptr) : Option (List Ptr) :=
  if q.length < cap then some (q ++ [msg]) else none

/-- Modelled from the spec: the kernel primitive `mailbox_ptr_tryfetch`
removes and returns the oldest message, failing on an empty queue. -/
def mailbox_ptr_tryfetch (q : List Ptr) : Option (Ptr × List Ptr) :=
  match q with
  | [] => none
  | p :: rest => some (p, rest)

/-- `sys_mbox_new(mb, size)` for a non-null `mb`: sets `valid = TRUE`,
increments the used-mailbox statistic, then calls `mailbox_ptr_init`
(passing no size). `initFails` models the kernel call's error return;
on failure `ERR_MEM` is returned with the state left as already written.
Result: (error code, mailbox state, new statistics count). -/
def sys_mbox_new (initFails : Bool) (stats : Nat) (size : Int) :
    ErrCode × SysMbox × Nat :=
  let mb : SysMbox := { valid := true, queue := mailbox_ptr_init }
  let stats' := stats + 1
  if initFails then (ErrCode.ERR_MEM, mb, stats')
  else (ErrCode.ERR_OK, mb, stats')

/-- `sys_mbox_valid(mbox)`: `FALSE` for a null pointer, else the flag. -/
def sys_mbox_valid (mbox : Option SysMbox) : Bool :=
  match mbox with
  | none => false
  | some m => m.valid

/-- `sys_mbox_trypost`: forwards to `mailbox_ptr_trypost`; a nonzero
kernel result becomes `ERR_MEM`. -/
def sys_mbox_trypost (cap : Nat) (mbox : SysMbox) (msg : Ptr) :
    ErrCode × SysMbox :=
  match mailbox_ptr_trypost cap mbox.queue msg with
  | some q => (ErrCode.ERR_OK, { mbox with queue := q })
  | none => (ErrCode.ERR_MEM, mbox)

/-- `sys_arch_mbox_tryfetch`: forwards to `mailbox_ptr_tryfetch`;
returns the fetched message (if any) and the new state. -/
def sys_arch_mbox_tryfetch (mbox : SysMbox) : Option Ptr × SysMbox :=
  match mailbox_ptr_tryfetch mbox.queue with
  | some (p, q) => (some p, { mbox with queue := q })
  | none => (none, mbox)

/-- Successive non-blocking posts of a list of messages
(`sys_mbox_trypost` folded over the list); returns the final state and
the number of accepted posts. -/
def tryPostAll (cap : Nat) (mbox : SysMbox) : List Ptr → SysMbox × Nat
  | [] => (mbox, 0)
  | m :: ms =>
    match sys_mbox_trypost cap mbox m with
    | (ErrCode.ERR_OK, mb') =>
      let (mbF, k) := tryPostAll cap mb' ms
      (mbF, k + 1)
    | (_, mb') =>
      let (mbF, k) := tryPostAll cap mb' ms
      (mbF, k)

/-! ## Virtual NIC transmit path (`uhyve_netif_output`, uhyve-net.c
lines 116-148)

A pbuf chain is modelled as the list of its segments' payloads (lists of
bytes); lwIP's pbuf invariant makes `p->tot_len` the sum of the chain's
segment lengths. `uhyve_net_write_sync(q->payload, q->len)` is one
synchronous channel write; the function's observable output is the error
code plus the ordered list of writes issued. `ETH_PAD_SIZE` is 0 in this
configuration, so the padding adjustments compile away. -/

/-- `p->tot_len`: total length of a pbuf chain. -/
def totLen (p : List (List Nat)) : Nat := (p.map List.length).sum

/-- The transmit loop `for (q = p; q != 0; q = q->next)`: one write per
segment, in chain order, each carrying that segment's payload. -/
def outputWrites : List (List Nat) → List (List Nat)
  | [] => []
  | q :: rest => q :: outputWrites rest

/-- `uhyve_netif_output`: rejects a chain with `tot_len > 1792` with
`ERR_IF` before any write; otherwise issues the per-segment writes and
returns `ERR_OK`. Result: (error code, ordered list of channel writes). -/
def uhyve_netif_output (p : List (List Nat)) : ErrCode × List (List Nat) :=
  if 1792 < totLen p then (ErrCode.ERR_IF, [])
  else (ErrCode.ERR_OK, outputWrites p)

/-! ## Receive copy loop (uhyve-net.c lines 179-183)

```
uint8_t pos = 0;
for (q = p; q != NULL; q = q->next) {
    memcpy((uint8_t*) q->payload, uhyve_netif->rx_buf + pos, q->len);
    pos += q->len;
}
```
`pos` is a `uint8_t`, so the running offset wraps modulo 256 between
segments, while within one `memcpy` the source index `pos + i` is plain
pointer arithmetic (no wrap). The receive buffer is a byte function, the
chain layout a list of segment lengths; the result is the list of copied
segment payloads. -/

def copySegs (rx : Nat → Nat) : Nat → List Nat → List (List Nat)
  | _, [] => []
  | pos, l :: ls =>
    ((List.range l).map fun i => rx (pos + i)) :: copySegs rx ((pos + l) % 256) ls

/-! ## Receive poll (`uhyve_netif_poll`, uhyve-net.c lines 159-204)

The channel is modelled as the list of frames the hypervisor has queued:
`uhyve_net_read_sync` returns 0 (success) once per queued frame and then a
nonzero status, ending the loop. Per frame, `pbuf_alloc` either fails
(`none`) or yields a chain layout (segment lengths summing to the frame
length), and `tcpip_callback_with_block` either accepts the pbuf for the
stack's worker thread or rejects it. Both outcomes are inputs of the
model (oracles for the external collaborators). The observable results
are the link statistics, the chains handed off, the number of channel
reads, and the number of `eoi()` interrupt acknowledgments. -/

/-- One received frame together with the responses of the external
collaborators: its bytes (as delivered into `rx_buf`), the chain layout
granted by `pbuf_alloc` (`none` = allocation failure), and whether
`tcpip_callback_with_block` accepts the hand-off. -/
structure RxFrame where
  data : Nat → Nat
  alloc : Option (List Nat)
  cbAccept : Bool

/-- `LINK_STATS` counters touched by the poll loop. -/
structure LinkStats where
  recv : Nat
  drop : Nat
  memerr : Nat
  deriving DecidableEq, Repr

/-- The `while (uhyve_net_read_sync(...) == 0)` loop body over the queued
frames. Returns (final stats, chains handed to the worker thread in
order, number of channel reads issued). -/
def pollFrames (st : LinkStats) : List RxFrame → LinkStats × List (List (List Nat)) × Nat
  | [] => (st, [], 1)
  | f :: rest =>
    match f.alloc with
    | some lens =>
      let chain := copySegs f.data 0 lens
      if f.cbAccept then
        let (st', hs, rd) := pollFrames { st with recv := st.recv + 1 } rest
        (st', chain :: hs, rd + 1)
      else
        let (st', hs, rd) := pollFrames { st with drop := st.drop + 1 } rest
        (st', hs, rd + 1)
    | none =>
      let (st', hs, rd) :=
        pollFrames { st with memerr := st.memerr + 1, drop := st.drop + 1 } rest
      (st', hs, rd + 1)

/-- Observable outcome of one `uhyve_netif_poll()` invocation. -/
structure PollResult where
  stats : LinkStats
  handoffs : List (List (List Nat))
  reads : Nat
  eois : Nat

/-- `uhyve_netif_poll()`: returns immediately when `uhyve_net_init_ok`
is unset (no read, no acknowledgment); otherwise drains the queued
frames and calls `eoi()` exactly once at the end. -/
def uhyve_netif_poll (initOk : Bool) (frames : List RxFrame) (st : LinkStats) :
    PollResult :=
  if initOk then
    let (st', hs, rd) := pollFrames st frames
    { stats := st', handoffs := hs, reads := rd, eois := 1 }
  else
    { stats := st, handoffs := [], reads := 0, eois := 0 }

/-- Whether a frame results in a hand-off: its buffer allocation succeeds
and the deferred-callback queue accepts it. -/
def frameDelivered (f : RxFrame) : Bool := f.alloc.isSome && f.cbAccept

/-- Whether a frame's buffer allocation fails. -/
def frameAllocFails (f : RxFrame) : Bool := !f.alloc.isSome

/-! ## Helper lemmas -/

/-- The transmit loop issues exactly the chain's segments as writes. -/
lemma outputWrites_eq (l : List (List Nat)) : outputWrites l = l := by
  induction l with
  | nil => rfl
  | cons q rest ih => simp [outputWrites, ih]

/-- Schrage's factorization computes the LCG step: for any `s` in
`[1, 2^32)` (every value the widened `unsigned int` seed can take after
the zero remap), the branchy Schrage computation equals
`(16807 * s) mod (2^31 - 1)`. -/
lemma rand_step_eq (s : Int) (h1 : 1 ≤ s) (h2 : s < 4294967296) :
    rand_step s = (16807 * s) % 2147483647 := by
  unfold rand_step rand_s2 rand_k
  split_ifs <;> omega

/-- If `s mod (2^31-1) ≠ 0` then one LCG step of `s` is nonzero
(`16807` and the prime `2^31 - 1` are coprime). -/
lemma lcg_step_ne_zero (t : Nat) (h : t % 2147483647 ≠ 0) :
    (16807 * t) % 2147483647 ≠ 0 := by
  intro hc
  have hdvd : 2147483647 ∣ 16807 * t := Nat.dvd_of_mod_eq_zero hc
  have cop : Nat.Coprime 2147483647 16807 := by norm_num [Nat.Coprime]
  have hdt : 2147483647 ∣ t := cop.dvd_of_dvd_mul_left hdvd
  obtain ⟨c, rfl⟩ := hdt
  exact h (Nat.mul_mod_right _ _)

/-! ## C1 -/

/-- C1: the socket shim's `poll()` does NOT forward `lwip_poll`'s result:
the code tests `if (ret)` instead of `if (ret < 0)`, so a positive count
of ready descriptors (here `lwip_poll` returning 1, with `errno` 17) is
turned into the failure sentinel `-1` with `errno` copied, instead of
being returned unchanged as the claim states. -/
theorem poll_shim_drops_positive_count :
    poll_shim 1 17 = (-1, some 17) ∧ (poll_shim 1 17).1 ≠ 1 := by decide

/-! ## C3 -/

/-- C3: `uhyve_netif_output` rejects every chain whose total length
exceeds 1792 bytes with `ERR_IF` and zero channel writes — in particular
a 1793-byte frame — and for a chain of total length at most 1792 it
returns `ERR_OK` having issued exactly one synchronous write per segment,
in segment order, each write carrying that segment's payload. -/
theorem uhyve_netif_output_length_gate (p : List (List Nat)) :
    (1792 < totLen p → uhyve_netif_output p = (ErrCode.ERR_IF, [])) ∧
    (totLen p = 1793 → uhyve_netif_output p = (ErrCode.ERR_IF, [])) ∧
    (totLen p ≤ 1792 → uhyve_netif_output p = (ErrCode.ERR_OK, p)) := by
  refine ⟨fun h => ?_, fun h => ?_, fun h => ?_⟩
  · simp [uhyve_netif_output, h]
  · simp [uhyve_netif_output, h]
  · simp [uhyve_netif_output, Nat.not_lt.mpr h, outputWrites_eq]

/-- Witness for C3: a single-segment frame of 1793 bytes is rejected with
no writes; a 5-byte two-segment frame is written segment-by-segment. -/
theorem uhyve_netif_output_length_gate_witness :
    uhyve_netif_output [List.replicate 1793 0] = (ErrCode.ERR_IF, []) ∧
    uhyve_netif_output [[1, 2], [3, 4, 5]] = (ErrCode.ERR_OK, [[1, 2], [3, 4, 5]]) :=
  ⟨(uhyve_netif_output_length_gate [List.replicate 1793 0]).2.1 (by simp [totLen]),
   (uhyve_netif_output_length_gate [[1, 2], [3, 4, 5]]).2.2 (by decide)⟩

/-! ## C10 -/

/-- C10: `sys_mbox_new` sets the validity flag and increments the
live-object statistic before calling `mailbox_ptr_init`, so when the
kernel initialization fails it returns `ERR_MEM` with the mailbox
nevertheless marked valid (`sys_mbox_valid` returns true on it) and the
statistic already incremented. -/
theorem sys_mbox_new_error_path (initFails : Bool) (stats : Nat) (size : Int)
    (h : initFails = true) :
    (sys_mbox_new initFails stats size).1 = ErrCode.ERR_MEM ∧
    sys_mbox_valid (some (sys_mbox_new initFails stats size).2.1) = true ∧
    (sys_mbox_new initFails stats size).2.2 = stats + 1 := by
  subst h
  simp [sys_mbox_new, sys_mbox_valid]

/-- Witness for C10 at a concrete failing initialization. -/
theorem sys_mbox_new_error_path_witness :
    (sys_mbox_new true 0 8).1 = ErrCode.ERR_MEM ∧
    sys_mbox_valid (some (sys_mbox_new true 0 8).2.1) = true ∧
    (sys_mbox_new true 0 8).2.2 = 1 :=
  sys_mbox_new_error_path true 0 8 rfl

/-- Unfolding of `__rand` (the zero remap feeding Schrage's step, the
`unsigned int` store, and the masked return). -/
lemma rand_unfold (seed : Nat) :
    __rand seed =
      (Int.land (rand_step (if (seed : Int) = 0 then 0x12345987 else (seed : Int))) RAND_MAX,
       ((rand_step (if (seed : Int) = 0 then 0x12345987 else (seed : Int))) % 4294967296).toNat) :=
  rfl

/-- Bitwise and of two nonnegative integers is the natural-number and. -/
lemma int_land_ofNat (a b : Nat) :
    Int.land (a : Int) (b : Int) = ((a &&& b : Nat) : Int) := rfl

/-- The `(unsigned int)` store does not change a value already in
`[0, 2^31 - 1)`. -/
lemma emod_u32_id (x : Int) (h0 : 0 ≤ x) (h1 : x < 2147483647) :
    x % 4294967296 = x := by omega

/-- `Int.toNat` of a cast mod is the `Nat` mod. -/
lemma toNat_emod_nat (a b : Nat) : ((a : Int) % (b : Int)).toNat = a % b := by
  omega

/-- The stored value of one LCG step, read back as a `Nat`, is `lcgStep`. -/
lemma toNat_lcg (s : Nat) : (16807 * (s : Int) % 2147483647).toNat = lcgStep s := by
  have h1 : (16807 : Int) * (s : Int) = ((16807 * s : Nat) : Int) := by push_cast; ring
  have h2 : (2147483647 : Int) = ((2147483647 : Nat) : Int) := by norm_num
  rw [h1, h2, toNat_emod_nat]
  rfl

/-! ## C6 -/

/-- C6: for every seed `s` with `1 ≤ s ≤ 2147483646`, `__rand` stores
exactly `(16807 * s) mod 2147483647` — the naive minimal-standard LCG
step `lcgStep` — as the new seed, and the intermediate values of
Schrage's factorization stay far inside the signed 64-bit `long` range:
`k = s / 127773` lies in `[0, 16807]` and the pre-adjustment value
`16807*(s mod 127773) - 2836*k` lies strictly between `-2147483647`
and `2147483647`. -/
theorem rand_schrage_equals_lcg (s : Nat) (h1 : 1 ≤ s) (h2 : s ≤ 2147483646) :
    (__rand s).2 = lcgStep s ∧
    0 ≤ rand_k (s : Int) ∧ rand_k (s : Int) ≤ 16807 ∧
    -2147483647 < rand_s2 (s : Int) ∧ rand_s2 (s : Int) < 2147483647 := by
  have hne : ¬((s : Int) = 0) := by omega
  have hstep := rand_step_eq (s : Int) (by omega) (by omega)
  refine ⟨?_, ?_, ?_, ?_, ?_⟩
  · rw [rand_unfold, if_neg hne]
    show ((rand_step (s : Int)) % 4294967296).toNat = lcgStep s
    have hnn : 0 ≤ 16807 * (s : Int) % 2147483647 :=
      Int.emod_nonneg _ (by norm_num)
    have hlt : 16807 * (s : Int) % 2147483647 < 2147483647 :=
      Int.emod_lt_of_pos _ (by norm_num)
    rw [hstep, emod_u32_id _ hnn hlt]
    exact toNat_lcg s
  · unfold rand_k; omega
  · unfold rand_k; omega
  · unfold rand_s2 rand_k; omega
  · unfold rand_s2 rand_k; omega

/-- Witness for C6 at seed 2026. -/
theorem rand_schrage_equals_lcg_witness :
    (__rand 2026).2 = lcgStep 2026 ∧
    0 ≤ rand_k ((2026 : Nat) : Int) ∧ rand_k ((2026 : Nat) : Int) ≤ 16807 ∧
    -2147483647 < rand_s2 ((2026 : Nat) : Int) ∧ rand_s2 ((2026 : Nat) : Int) < 2147483647 :=
  rand_schrage_equals_lcg 2026 (by norm_num) (by norm_num)

/-! ## C7 -/

/-- C7 counterexample: the claim quantifies over every value the stored
`unsigned int` seed can hold, but the seed value `2147483647 = 2^31 - 1`
is a nonzero multiple of the modulus: one `__rand` call on it stores 0 as
the new seed, so a zero seed does persist after the call. -/
theorem rand_stored_zero_at_2147483647 :
    (__rand 2147483647).2 = 0 ∧ (2147483647 : Nat) ≠ 0 := by decide

/-- C7 (amended): a stored seed of 0 is remapped to the constant
`0x12345987` before the recurrence (so `__rand 0` stores exactly one LCG
step of that constant), and for every stored 32-bit seed that is zero or
NOT a nonzero multiple of `2147483647` (the exceptions being exactly
`2147483647` and `4294967294`), the stored seed after the call is nonzero
(and below the modulus), and the returned value lies in `[0, 2^31 - 1]`. -/
theorem rand_zero_never_persists (seed : Nat) (hlt : seed < 4294967296)
    (hns : seed % 2147483647 ≠ 0 ∨ seed = 0) :
    (__rand seed).2 ≠ 0 ∧ (__rand seed).2 < 2147483647 ∧
    0 ≤ (__rand seed).1 ∧ (__rand seed).1 ≤ 2147483647 ∧
    (seed = 0 → (__rand seed).2 = lcgStep 0x12345987) := by
  by_cases h0 : seed = 0
  · subst h0
    refine ⟨by decide, by decide, by decide, by decide, fun _ => by decide⟩
  · have hne : ¬((seed : Int) = 0) := by omega
    have hmod : seed % 2147483647 ≠ 0 := hns.resolve_right h0
    have hstep := rand_step_eq (seed : Int) (by omega) (by omega)
    have hnz : (16807 * seed) % 2147483647 ≠ 0 := lcg_step_ne_zero seed hmod
    rw [rand_unfold, if_neg hne]
    have hland :
        Int.land (rand_step (seed : Int)) RAND_MAX =
          (((rand_step (seed : Int)).toNat &&& 0x7fffffff : Nat) : Int) := by
      have hnn : 0 ≤ rand_step (seed : Int) := by rw [hstep]; omega
      calc Int.land (rand_step (seed : Int)) RAND_MAX
          = Int.land (((rand_step (seed : Int)).toNat : Nat) : Int) ((0x7fffffff : Nat) : Int) := by
            rw [Int.toNat_of_nonneg hnn]; rfl
        _ = (((rand_step (seed : Int)).toNat &&& 0x7fffffff : Nat) : Int) := int_land_ofNat _ _
    refine ⟨?_, ?_, ?_, ?_, fun hc => absurd hc h0⟩
    · show ((rand_step (seed : Int)) % 4294967296).toNat ≠ 0
      have hnn : 0 ≤ 16807 * (seed : Int) % 2147483647 :=
        Int.emod_nonneg _ (by norm_num)
      have hlt2 : 16807 * (seed : Int) % 2147483647 < 2147483647 :=
        Int.emod_lt_of_pos _ (by norm_num)
      rw [hstep, emod_u32_id _ hnn hlt2, toNat_lcg]
      exact hnz
    · show ((rand_step (seed : Int)) % 4294967296).toNat < 2147483647
      have hnn : 0 ≤ 16807 * (seed : Int) % 2147483647 :=
        Int.emod_nonneg _ (by norm_num)
      have hlt2 : 16807 * (seed : Int) % 2147483647 < 2147483647 :=
        Int.emod_lt_of_pos _ (by norm_num)
      rw [hstep, emod_u32_id _ hnn hlt2, toNat_lcg]
      show (16807 * seed) % 2147483647 < 2147483647
      exact Nat.mod_lt _ (by norm_num)
    · show 0 ≤ Int.land (rand_step (seed : Int)) RAND_MAX
      rw [hland]
      exact Int.natCast_nonneg _
    · show Int.land (rand_step (seed : Int)) RAND_MAX ≤ 2147483647
      rw [hland]
      have := Nat.and_le_right (n := (rand_step (seed : Int)).toNat) (m := 0x7fffffff)
      omega

/-! ## C5 -/

/-- Folding non-blocking posts over a mailbox whose queue respects the
capacity: the queue fills up to the capacity and the number of accepted
posts is exactly the free space, the rest being rejected. -/
lemma tryPostAll_spec (cap : Nat) (msgs : List Ptr) (mb : SysMbox)
    (hle : mb.queue.length ≤ cap) :
    (tryPostAll cap mb msgs).1.queue.length = min (mb.queue.length + msgs.length) cap ∧
    (tryPostAll cap mb msgs).2 = min (mb.queue.length + msgs.length) cap - mb.queue.length := by
  induction msgs generalizing mb with
  | nil =>
    simp [tryPostAll]
    omega
  | cons m ms ih =>
    by_cases hroom : mb.queue.length < cap
    · have hpost : sys_mbox_trypost cap mb m =
          (ErrCode.ERR_OK, { mb with queue := mb.queue ++ [m] }) := by
        simp [sys_mbox_trypost, mailbox_ptr_trypost, hroom]
      have hlen2 : ({ mb with queue := mb.queue ++ [m] } : SysMbox).queue.length ≤ cap := by
        simp
        omega
      obtain ⟨j1, j2⟩ := ih { mb with queue := mb.queue ++ [m] } hlen2
      simp only [tryPostAll, hpost, j1, j2]
      simp
      omega
    · have hpost : sys_mbox_trypost cap mb m = (ErrCode.ERR_MEM, mb) := by
        simp [sys_mbox_trypost, mailbox_ptr_trypost, hroom]
      obtain ⟨j1, j2⟩ := ih mb hle
      simp only [tryPostAll, hpost, j1, j2]
      constructor <;> omega

/-- C5 counterexample: `sys_mbox_new` ignores its `size` argument — the
mailbox it produces is identical for requested sizes 5 and 1000000, so
the capacity cannot be "determined by the size argument"; concretely,
with the kernel's fixed capacity instantiated to 1, a mailbox created
with requested size 2 already rejects the second outstanding non-blocking
post with `ERR_MEM`. -/
theorem sys_mbox_new_ignores_size :
    sys_mbox_new false 0 5 = sys_mbox_new false 0 1000000 ∧
    (sys_mbox_trypost 1 (sys_mbox_new false 0 2).2.1 77).1 = ErrCode.ERR_OK ∧
    (sys_mbox_trypost 1 (sys_mbox_trypost 1 (sys_mbox_new false 0 2).2.1 77).2 88).1 =
      ErrCode.ERR_MEM := by
  decide

/-- C5 (amended): the mailbox's capacity is the kernel's fixed constant,
independent of the size argument (which `sys_mbox_new` discards): the
created mailbox is the same for any two requested sizes; with kernel
capacity `cap`, a mailbox holding fewer than `cap` messages accepts a
non-blocking post by appending it, a full one rejects it with `ERR_MEM`
leaving the state unchanged — and keeps rejecting until a fetch, after
which a post succeeds again; a freshly created mailbox accepts exactly
`min msgs.length cap` of any burst of non-blocking posts. -/
theorem sys_mbox_capacity_fixed_at_creation (cap : Nat) (mb : SysMbox) (msg : Ptr)
    (msgs : List Ptr) (f : Bool) (st : Nat) (size1 size2 : Int) :
    (sys_mbox_new f st size1).2.1 = (sys_mbox_new f st size2).2.1 ∧
    (mb.queue.length < cap →
      sys_mbox_trypost cap mb msg =
        (ErrCode.ERR_OK, { mb with queue := mb.queue ++ [msg] })) ∧
    (cap ≤ mb.queue.length → sys_mbox_trypost cap mb msg = (ErrCode.ERR_MEM, mb)) ∧
    (tryPostAll cap (sys_mbox_new f st size1).2.1 msgs).2 = min msgs.length cap ∧
    (mb.queue.length = cap → 0 < cap →
      (sys_mbox_trypost cap (sys_arch_mbox_tryfetch mb).2 msg).1 = ErrCode.ERR_OK) := by
  have hfresh : (sys_mbox_new f st size1).2.1 = { valid := true, queue := [] } := by
    cases f <;> rfl
  refine ⟨?_, ?_, ?_, ?_, ?_⟩
  · cases f <;> rfl
  · intro h
    simp [sys_mbox_trypost, mailbox_ptr_trypost, h]
  · intro h
    simp [sys_mbox_trypost, mailbox_ptr_trypost, Nat.not_lt.mpr h]
  · rw [hfresh]
    have := tryPostAll_spec cap msgs { valid := true, queue := [] } (by simp)
    simp at this
    exact this.2
  · intro hfull hpos
    match hq : mb.queue with
    | [] => rw [hq] at hfull; simp at hfull; omega
    | p :: rest =>
      have : (sys_arch_mbox_tryfetch mb).2 = { mb with queue := rest } := by
        simp [sys_arch_mbox_tryfetch, mailbox_ptr_tryfetch, hq]
      rw [this]
      have hlt : rest.length < cap := by
        rw [hq] at hfull
        simp at hfull
        omega
      simp [sys_mbox_trypost, mailbox_ptr_trypost, hlt]

/-- Witness for C5 (amended) at kernel capacity 2: the full mailbox
`[7, 8]` rejects a post, a burst of three posts into a fresh mailbox
accepts two, and after one fetch the full mailbox accepts a post. -/
theorem sys_mbox_capacity_fixed_at_creation_witness :
    sys_mbox_trypost 2 { valid := true, queue := [7, 8] } 9 =
      (ErrCode.ERR_MEM, { valid := true, queue := [7, 8] }) ∧
    (tryPostAll 2 (sys_mbox_new false 0 3).2.1 [1, 2, 3]).2 = min 3 2 ∧
    (sys_mbox_trypost 2 (sys_arch_mbox_tryfetch { valid := true, queue := [7, 8] }).2 9).1 =
      ErrCode.ERR_OK :=
  ⟨(sys_mbox_capacity_fixed_at_creation 2 { valid := true, queue := [7, 8] } 9 [1, 2, 3]
      false 0 3 99).2.2.1 (by decide),
   (sys_mbox_capacity_fixed_at_creation 2 { valid := true, queue := [7, 8] } 9 [1, 2, 3]
      false 0 3 99).2.2.2.1,
   (sys_mbox_capacity_fixed_at_creation 2 { valid := true, queue := [7, 8] } 9 [1, 2, 3]
      false 0 3 99).2.2.2.2 (by decide) (by decide)⟩

/-! ## C8 -/

/-- Recombination of two nibbles: shift-left-4 then bitwise or is
`16 * high + low`. -/
lemma shiftl_or_nibble : ∀ h, h < 16 → ∀ l, l < 16 → h <<< 4 ||| l = 16 * h + l := by
  decide

/-- `dehex` inverts hex rendering of a nibble, in either letter case. -/
lemma dehex_toHexChar (u : Bool) (v : Nat) (h : v < 16) :
    dehex (toHexChar u v) = v := by
  cases u <;> interval_cases v <;> decide

/-- C8: for every MAC string of the shape `"aa:bb:cc:dd:ee:ff"` — two hex
digits per byte (either letter case) with colons at the fixed offsets —
the driver-initialization decode loop recovers exactly the six byte
values. -/
theorem mac_decode_correct (u : Bool) (b0 b1 b2 b3 b4 b5 : Nat)
    (h0 : b0 < 256) (h1 : b1 < 256) (h2 : b2 < 256)
    (h3 : b3 < 256) (h4 : b4 < 256) (h5 : b5 < 256) :
    macDecode 6 (renderMac u b0 b1 b2 b3 b4 b5) = [b0, b1, b2, b3, b4, b5] := by
  have e : ∀ b : Nat, b < 256 →
      dehex (toHexChar u (b / 16)) <<< 4 ||| dehex (toHexChar u (b % 16)) = b := by
    intro b hb
    rw [dehex_toHexChar u _ (by omega),
      dehex_toHexChar u _ (Nat.mod_lt _ (by norm_num)),
      shiftl_or_nibble _ (by omega) _ (Nat.mod_lt _ (by norm_num))]
    omega
  have hs : macDecode 6 (renderMac u b0 b1 b2 b3 b4 b5) =
      [dehex (toHexChar u (b0 / 16)) <<< 4 ||| dehex (toHexChar u (b0 % 16)),
       dehex (toHexChar u (b1 / 16)) <<< 4 ||| dehex (toHexChar u (b1 % 16)),
       dehex (toHexChar u (b2 / 16)) <<< 4 ||| dehex (toHexChar u (b2 % 16)),
       dehex (toHexChar u (b3 / 16)) <<< 4 ||| dehex (toHexChar u (b3 % 16)),
       dehex (toHexChar u (b4 / 16)) <<< 4 ||| dehex (toHexChar u (b4 % 16)),
       dehex (toHexChar u (b5 / 16)) <<< 4 ||| dehex (toHexChar u (b5 % 16))] := rfl
  rw [hs, e b0 h0, e b1 h1, e b2 h2, e b3 h3, e b4 h4, e b5 h5]

/-- Witness for C8: the concrete string `"aa:bb:cc:dd:ee:ff"` decodes to
`{0xAA, 0xBB, 0xCC, 0xDD, 0xEE, 0xFF}`. -/
theorem mac_decode_correct_witness :
    macDecode 6 ("aa:bb:cc:dd:ee:ff".toList) = [0xAA, 0xBB, 0xCC, 0xDD, 0xEE, 0xFF] := by
  have h := mac_decode_correct false 0xAA 0xBB 0xCC 0xDD 0xEE 0xFF
    (by decide) (by decide) (by decide) (by decide) (by decide) (by decide)
  rw [show renderMac false 0xAA 0xBB 0xCC 0xDD 0xEE 0xFF = "aa:bb:cc:dd:ee:ff".toList from
    by decide] at h
  exact h

/-! ## Poll-loop bookkeeping (shared by the receive-path claims) -/

/-- Complete bookkeeping of the poll loop: receive/drop/out-of-memory
counters, number of hand-offs and number of channel reads, as functions
of the queued frames and the collaborator responses. -/
lemma pollFrames_spec (frames : List RxFrame) (st : LinkStats) :
    (pollFrames st frames).1.recv = st.recv + frames.countP frameDelivered ∧
    (pollFrames st frames).1.drop = st.drop + frames.countP (fun f => !frameDelivered f) ∧
    (pollFrames st frames).1.memerr = st.memerr + frames.countP frameAllocFails ∧
    (pollFrames st frames).2.1.length = frames.countP frameDelivered ∧
    (pollFrames st frames).2.2 = frames.length + 1 := by
  induction frames generalizing st with
  | nil => simp [pollFrames]
  | cons f rest ih =>
    match halloc : f.alloc with
    | some lens =>
      match hcb : f.cbAccept with
      | true =>
        have hd : frameDelivered f = true := by
          simp [frameDelivered, halloc, hcb]
        simp only [pollFrames, halloc, hcb, if_true]
        obtain ⟨i1, i2, i3, i4, i5⟩ := ih { st with recv := st.recv + 1 }
        simp [List.countP_cons, hd, frameAllocFails, halloc, i1, i2, i3, i4, i5]
        omega
      | false =>
        have hd : frameDelivered f = false := by
          simp [frameDelivered, halloc, hcb]
        simp only [pollFrames, halloc, hcb, if_false]
        obtain ⟨i1, i2, i3, i4, i5⟩ := ih { st with drop := st.drop + 1 }
        simp [List.countP_cons, hd, frameAllocFails, halloc, i1, i2, i3, i4, i5]
        omega
    | none =>
      have hd : frameDelivered f = false := by
        simp [frameDelivered, halloc]
      simp only [pollFrames, halloc]
      obtain ⟨i1, i2, i3, i4, i5⟩ :=
        ih { st with memerr := st.memerr + 1, drop := st.drop + 1 }
      simp [List.countP_cons, hd, frameAllocFails, halloc, i1, i2, i3, i4, i5]
      omega

/-- In the initialized state the poll just runs the loop and then
acknowledges once. -/
lemma poll_unfold_true (frames : List RxFrame) (st : LinkStats) :
    uhyve_netif_poll true frames st =
      { stats := (pollFrames st frames).1,
        handoffs := (pollFrames st frames).2.1,
        reads := (pollFrames st frames).2.2,
        eois := 1 } := by
  unfold uhyve_netif_poll
  rfl

/-! ## C4 -/

/-- C4 counterexample: before `uhyve_net_init_ok` is set (the window
between `irq_install_handler` and the end of `uhyve_netif_init`), an
invocation of the receive poll returns immediately WITHOUT acknowledging
the interrupt — zero `eoi()` calls, not exactly one — even with a frame
queued. -/
theorem poll_uninitialized_skips_ack :
    (uhyve_netif_poll false [{ data := fun _ => 0, alloc := some [60], cbAccept := true }]
      { recv := 0, drop := 0, memerr := 0 }).eois = 0 := rfl

/-- C4 (amended): once the driver is initialized, every invocation of the
receive poll acknowledges the interrupt exactly once, however many frames
are drained; the number of hand-offs to the worker thread is the number
of drained frames whose allocation succeeded and whose callback hand-off
was accepted, and every undelivered frame increments the drop statistic.
In particular a three-frame drain with all allocations and hand-offs
succeeding produces exactly one acknowledgment and three hand-offs. -/
theorem poll_acks_exactly_once (frames : List RxFrame) (st : LinkStats) :
    (uhyve_netif_poll true frames st).eois = 1 ∧
    (uhyve_netif_poll true frames st).handoffs.length = frames.countP frameDelivered ∧
    (uhyve_netif_poll true frames st).stats.drop =
      st.drop + frames.countP (fun f => !frameDelivered f) ∧
    (frames.length = 3 → (∀ f ∈ frames, frameDelivered f) →
      (uhyve_netif_poll true frames st).eois = 1 ∧
      (uhyve_netif_poll true frames st).handoffs.length = 3) := by
  obtain ⟨_, h2, _, h4, _⟩ := pollFrames_spec frames st
  rw [poll_unfold_true]
  refine ⟨rfl, h4, h2, fun hlen hall => ⟨rfl, ?_⟩⟩
  rw [h4, List.countP_eq_length.mpr hall, hlen]

/-- Witness for C4 (amended): three frames, all delivered: one
acknowledgment, three hand-offs. -/
theorem poll_acks_exactly_once_witness :
    (uhyve_netif_poll true
        [{ data := fun _ => 0, alloc := some [60], cbAccept := true },
         { data := fun _ => 1, alloc := some [42], cbAccept := true },
         { data := fun _ => 2, alloc := some [1514], cbAccept := true }]
        { recv := 0, drop := 0, memerr := 0 }).eois = 1 ∧
    (uhyve_netif_poll true
        [{ data := fun _ => 0, alloc := some [60], cbAccept := true },
         { data := fun _ => 1, alloc := some [42], cbAccept := true },
         { data := fun _ => 2, alloc := some [1514], cbAccept := true }]
        { recv := 0, drop := 0, memerr := 0 }).handoffs.length = 3 :=
  (poll_acks_exactly_once _ _).2.2.2 rfl (by
    intro f hf
    simp only [List.mem_cons, List.not_mem_nil, or_false] at hf
    rcases hf with rfl | rfl | rfl <;> rfl)

/-! ## C9 -/

/-- C9: whenever allocation fails for a received frame the out-of-memory
and drop statistics are recorded and the loop continues: every queued
frame is read from the channel exactly once (`frames.length` reads plus
the final empty read — no retry, no early termination), and frames after
a failing one are still delivered. -/
theorem poll_alloc_failure_drop_and_continue (frames : List RxFrame) (st : LinkStats) :
    (uhyve_netif_poll true frames st).stats.memerr =
      st.memerr + frames.countP frameAllocFails ∧
    (uhyve_netif_poll true frames st).stats.drop =
      st.drop + frames.countP (fun f => !frameDelivered f) ∧
    (uhyve_netif_poll true frames st).reads = frames.length + 1 ∧
    (uhyve_netif_poll true frames st).stats.recv =
      st.recv + frames.countP frameDelivered := by
  obtain ⟨h1, h2, h3, _, h5⟩ := pollFrames_spec frames st
  rw [poll_unfold_true]
  exact ⟨h3, h2, h5, h1⟩

/-! ## C2 -/

/-- General copy-loop lemma: when every segment of the chain starts at an
offset below 256 (so the `uint8_t` position counter never wraps), the
copied segments are exactly the consecutive slices of the receive
buffer starting at `pos`. -/
lemma copySegs_flatten (rx : Nat → Nat) (lens : List Nat) (pos : Nat)
    (h : ∀ i, i < lens.length → pos + (lens.take i).sum < 256) :
    (copySegs rx pos lens).flatten =
      (List.range lens.sum).map (fun i => rx (pos + i)) := by
  induction lens generalizing pos with
  | nil => simp [copySegs]
  | cons l ls ih =>
    simp only [copySegs, List.flatten_cons, List.sum_cons]
    cases ls with
    | nil =>
      simp [copySegs]
    | cons l2 ls2 =>
      have hwrap : (pos + l) % 256 = pos + l := by
        have := h 1 (by simp)
        simp at this
        omega
      rw [hwrap]
      rw [ih (pos + l) ?_]
      · rw [List.range_add, List.map_append, List.map_map]
        simp [Function.comp, Nat.add_assoc]
      · intro i hi
        have := h (i + 1) (by simpa using hi)
        simpa [Nat.add_assoc] using this

/-- C2 counterexample: the copy loop's position counter is a `uint8_t`, so
for the chain layout `[256, 1]` (a first segment of 256 bytes) the second
segment is copied from the wrapped offset 0 instead of offset 256: with a
receive buffer whose byte 256 differs from byte 0, the concatenated copy
is not the first 257 bytes of the buffer. -/
theorem copy_loop_wraps_at_offset_256 :
    (copySegs (fun i => if i < 256 then 0 else 1) 0 [256, 1]).flatten ≠
      (List.range (([256, 1] : List Nat).sum)).map (fun i => if i < 256 then 0 else 1) := by
  decide

/-- C2 (amended): for every chain layout in which each segment starts at
an offset below 256 (the sum of the lengths of the segments before it is
at most 255 — in particular any single-segment chain of any length, and
any multi-segment chain whose non-final prefix fits in 255 bytes), the
concatenation of the copied segments equals the first `lens.sum` bytes of
the reusable receive buffer. Chains in which some segment starts at
offset 256 or later are copied from offsets reduced modulo 256 instead. -/
theorem copy_loop_reconstructs_frame (rx : Nat → Nat) (lens : List Nat)
    (h : ∀ i, i < lens.length → (lens.take i).sum < 256) :
    (copySegs rx 0 lens).flatten = (List.range lens.sum).map rx := by
  have hmain := copySegs_flatten rx lens 0 (by simpa using h)
  simpa using hmain

/-- Witness for C2 (amended): a three-segment chain `[200, 55, 1]`
(total 256 bytes, segment offsets 0, 200, 255) is copied correctly. -/
theorem copy_loop_reconstructs_frame_witness :
    (copySegs (fun i => i + 3) 0 [200, 55, 1]).flatten =
      (List.range (([200, 55, 1] : List Nat).sum)).map (fun i => i + 3) :=
  copy_loop_reconstructs_frame (fun i => i + 3) [200, 55, 1] (by decide)

/-- Witness for C7 (amended) at seed 0: the remap fires, the stored seed
is one LCG step of `0x12345987`, nonzero and in range. -/
theorem rand_zero_never_persists_witness :
    (__rand 0).2 ≠ 0 ∧ (__rand 0).2 < 2147483647 ∧
    0 ≤ (__rand 0).1 ∧ (__rand 0).1 ≤ 2147483647 ∧
    ((0 : Nat) = 0 → (__rand 0).2 = lcgStep 0x12345987) :=
  rand_zero_never_persists 0 (by norm_num) (Or.inr rfl)
